import Mathlib

/-!
Shallow embedding of the ability-score core of the DnD-Helper repository.

The repository carries two versions of the core:
  - version 1: `ability_score.py` at the repository root
    (`ScoreBase` / `RacialBonus` / `FeatBonus` / `LevelBonus` / `AbilityScores`);
  - version 2: `src/ability_score.py`
    (`AbilitySet` / `BaseAbilities` / `AbilityBonus` / `CharacterStats`).

Python integers are modelled by `Int`.  Values that may fail an
`isinstance(x, int)` check are modelled by `PyVal` (an int or some non-int).
All errors in the source are untyped `ValueError`s; each distinct raise
site/condition gets its own constructor in `V1Err` / `V2Err`, carrying the data
interpolated into the message.  In-place mutation is modelled by returning a
pair of the raised error (if any) and the object state at the moment the call
returns or the exception propagates.
-/

namespace DnD

/-- The six ability identifiers.  Both source files declare an `Ability` enum
with members in the order STRENGTH, DEXTERITY, CONSTITUTION, INTELLIGENCE,
WISDOM, CHARISMA, each member carrying a display name and the attribute/field
name used to address the corresponding slot of a value set. -/
inductive Ability where
  | strength
  | dexterity
  | constitution
  | intelligence
  | wisdom
  | charisma
  deriving DecidableEq, Repr, Fintype

/-- Iteration order of `for ability in Ability` in the validation loops of
version 2 (`AbilitySet.__post_init__` and `BaseAbilities.__post_init__`):
Python iterates an Enum in declaration order. -/
def abilityEnumOrder : List Ability :=
  [.strength, .dexterity, .constitution, .intelligence, .wisdom, .charisma]

/-- A Python value supplied where an `int` is expected: either an actual int
(an unbounded `Int`, matching Python integers) or some non-int value (a float,
a string, ...), which `isinstance(x, int)` rejects. -/
inductive PyVal where
  | int (n : Int)
  | nonInt
  deriving DecidableEq, Repr

/-- The `isinstance(x, int)` test. -/
def PyVal.isInt : PyVal → Bool
  | .int _ => true
  | .nonInt => false

/-- The integer held by a `PyVal`, with an arbitrary default for non-ints.
Used only after the isinstance validation has ruled the non-int case out. -/
def PyVal.toIntD : PyVal → Int
  | .int n => n
  | .nonInt => 0

/-- Six integer fields, one per ability: the common record shape of
`CharacterAbility` (version 1) and `AbilitySet` (version 2), fields in the
declared order strength, dexterity, constitution, wisdom, intelligence,
charisma. -/
structure AbilityFields where
  strength : Int
  dexterity : Int
  constitution : Int
  wisdom : Int
  intelligence : Int
  charisma : Int
  deriving DecidableEq, Repr

/-- `getattr(obj, ability.field_name)`. -/
def AbilityFields.get (f : AbilityFields) : Ability → Int
  | .strength => f.strength
  | .dexterity => f.dexterity
  | .constitution => f.constitution
  | .intelligence => f.intelligence
  | .wisdom => f.wisdom
  | .charisma => f.charisma

/-- `setattr(obj, ability.field_name, v)`. -/
def AbilityFields.set (f : AbilityFields) (a : Ability) (v : Int) : AbilityFields :=
  match a with
  | .strength => { f with strength := v }
  | .dexterity => { f with dexterity := v }
  | .constitution => { f with constitution := v }
  | .intelligence => { f with intelligence := v }
  | .wisdom => { f with wisdom := v }
  | .charisma => { f with charisma := v }

/-- The all-zero value set (every field defaults to 0 in both versions). -/
def AbilityFields.zero : AbilityFields := ⟨0, 0, 0, 0, 0, 0⟩

/-- The six constructor arguments as actually supplied from Python, before any
isinstance validation. -/
structure PyFields where
  strength : PyVal
  dexterity : PyVal
  constitution : PyVal
  wisdom : PyVal
  intelligence : PyVal
  charisma : PyVal
  deriving DecidableEq, Repr

def PyFields.get (p : PyFields) : Ability → PyVal
  | .strength => p.strength
  | .dexterity => p.dexterity
  | .constitution => p.constitution
  | .intelligence => p.intelligence
  | .wisdom => p.wisdom
  | .charisma => p.charisma

/-- The fields once validation has established that every one is an int. -/
def PyFields.toFieldsD (p : PyFields) : AbilityFields :=
  ⟨p.strength.toIntD, p.dexterity.toIntD, p.constitution.toIntD,
    p.wisdom.toIntD, p.intelligence.toIntD, p.charisma.toIntD⟩

/-- Convenience: a `PyFields` whose members are all actual ints. -/
def PyFields.ofInts (s d c w i ch : Int) : PyFields :=
  ⟨.int s, .int d, .int c, .int w, .int i, .int ch⟩

/-- The list the version-1 constructors build for their `all(...)` checks, in
the source order strength, dexterity, constitution, wisdom, intelligence,
charisma. -/
def PyFields.asList (p : PyFields) : List PyVal :=
  [p.strength, p.dexterity, p.constitution, p.wisdom, p.intelligence, p.charisma]

/-! ## Version 2: src/ability_score.py -/

/-- `BonusType` enum of version 2: RACIAL, FEAT, LEVEL. -/
inductive BonusType where
  | racial
  | feat
  | level
  deriving DecidableEq, Repr

/-- `MAX_SCORE` of version 2: the 20-point cap. -/
def MAX_SCORE : Int := 20

/-- The distinct `raise ValueError(...)` sites of version 2.  Every error in
the source is an untyped ValueError; a constructor here identifies the
site/condition that raised it, carrying the data its message interpolates. -/
inductive V2Err where
  | mustBeInteger (a : Ability)
  | negativeBonus (a : Ability)
  | negativeBase (a : Ability)
  | racialMismatch
  | featMismatch
  | levelMismatch
  | invalidBonusType
  | invalidIncrement (a : Ability)
  | capExceeded (a : Ability) (newTotal cap : Int)
  deriving DecidableEq, Repr

/-- `AbilitySet.__post_init__` of version 2: for each ability in enum order,
raise "must be an integer" on a non-int field, then raise "cannot be negative
for bonuses" on a negative field unless the instance is a `BaseAbilities`. -/
def v2CheckFields (isBase : Bool) (p : PyFields) : List Ability → Except V2Err Unit
  | [] => .ok ()
  | a :: rest =>
    match p.get a with
    | .nonInt => .error (.mustBeInteger a)
    | .int n =>
      if n < 0 ∧ isBase = false then .error (.negativeBonus a)
      else v2CheckFields isBase p rest

/-- The extra loop of `BaseAbilities.__post_init__`: raise "Base ... must be
non-negative" on the first negative field in enum order.  It runs after the
integer check has succeeded, so every field is an int. -/
def v2CheckBaseNonNeg (p : PyFields) : List Ability → Except V2Err Unit
  | [] => .ok ()
  | a :: rest =>
    if (p.get a).toIntD < 0 then .error (.negativeBase a)
    else v2CheckBaseNonNeg p rest

/-- `BaseAbilities(...)` of version 2: the dataclass stores the six fields,
then `__post_init__` runs the inherited integer check (whose negativity branch
is skipped for `BaseAbilities` instances) followed by the non-negativity
check. -/
def BaseAbilities.init (p : PyFields) : Except V2Err AbilityFields :=
  match v2CheckFields true p abilityEnumOrder with
  | .error e => .error e
  | .ok _ =>
    match v2CheckBaseNonNeg p abilityEnumOrder with
    | .error e => .error e
    | .ok _ => .ok p.toFieldsD

/-- An `AbilityBonus` value of version 2: six validated fields plus the
`bonus_type` tag, immutable after construction. -/
structure AbilityBonus where
  fields : AbilityFields
  bonus_type : BonusType
  deriving DecidableEq, Repr

/-- `AbilityBonus(bonus_type=bt, ...)` of version 2: the inherited field
validation (integer check, then the negativity check, active for non-base
sets), then the `isinstance(self.bonus_type, BonusType)` check, which cannot
fail here because the model types the argument as `BonusType`. -/
def AbilityBonus.init (bt : BonusType) (p : PyFields) : Except V2Err AbilityBonus :=
  match v2CheckFields false p abilityEnumOrder with
  | .error e => .error e
  | .ok _ => .ok ⟨p.toFieldsD, bt⟩

/-- The state of a version-2 `CharacterStats` object: one base set and one
tagged bonus set per slot.  The `_score_components` list aliases these four
objects. -/
structure CharacterStats where
  base_abilities : AbilityFields
  racial_bonus : AbilityBonus
  feat_bonus : AbilityBonus
  level_bonus : AbilityBonus
  deriving DecidableEq, Repr

/-- The default `AbilityBonus(bonus_type=bt)` built when a slot argument is
None; all-zero fields, so its construction always succeeds. -/
def defaultBonus (bt : BonusType) : AbilityBonus := ⟨AbilityFields.zero, bt⟩

/-- `CharacterStats.__init__` of version 2: `racial or AbilityBonus(...)`
replaces only None (an AbilityBonus instance is always truthy), then the three
tag checks run in racial, feat, level order, raising on the first mismatch. -/
def CharacterStats.init (base : AbilityFields) (racial feat level : Option AbilityBonus) :
    Except V2Err CharacterStats :=
  let r := racial.getD (defaultBonus .racial)
  let f := feat.getD (defaultBonus .feat)
  let l := level.getD (defaultBonus .level)
  if r.bonus_type ≠ .racial then .error .racialMismatch
  else if f.bonus_type ≠ .feat then .error .featMismatch
  else if l.bonus_type ≠ .level then .error .levelMismatch
  else .ok ⟨base, r, f, l⟩

/-- The `_score_components` list captured by `CharacterStats.__init__`. -/
def CharacterStats.components (s : CharacterStats) : List AbilityFields :=
  [s.base_abilities, s.racial_bonus.fields, s.feat_bonus.fields, s.level_bonus.fields]

/-- `CharacterStats.total_score`: sum of the ability's field over
`_score_components`. -/
def CharacterStats.total_score (s : CharacterStats) (a : Ability) : Int :=
  (s.components.map (fun c => c.get a)).sum

/-- `CharacterStats.modifier`: `math.floor((total_score(ability) - 10) / 2)`,
the floor of the exact rational quotient. -/
def CharacterStats.modifier (s : CharacterStats) (a : Ability) : Int :=
  ⌊((s.total_score a : ℚ) - 10) / 2⌋

/-- The validation loop of `add_bonus` (version 2): for each entry in
iteration (insertion) order, first the positive-integer check
(`not isinstance(amount, int) or amount <= 0`, one combined ValueError), then
the cap check against the prospective total computed from the current
(pre-mutation) state.  The first failing check raises. -/
def v2Validate (s : CharacterStats) : List (Ability × PyVal) → Option V2Err
  | [] => none
  | (a, amt) :: rest =>
    if amt.isInt = false ∨ amt.toIntD ≤ 0 then some (.invalidIncrement a)
    else
      let newTotal := s.total_score a + amt.toIntD
      if newTotal > MAX_SCORE then some (.capExceeded a newTotal MAX_SCORE)
      else v2Validate s rest

/-- One `setattr(target, field, getattr(target, field) + amount)` on the bonus
set selected by `bonus_map[bonus_type]` (the base set is not reachable). -/
def CharacterStats.addToBonus (s : CharacterStats) (bt : BonusType) (a : Ability)
    (amt : Int) : CharacterStats :=
  match bt with
  | .racial =>
    { s with racial_bonus :=
        ⟨s.racial_bonus.fields.set a (s.racial_bonus.fields.get a + amt),
          s.racial_bonus.bonus_type⟩ }
  | .feat =>
    { s with feat_bonus :=
        ⟨s.feat_bonus.fields.set a (s.feat_bonus.fields.get a + amt),
          s.feat_bonus.bonus_type⟩ }
  | .level =>
    { s with level_bonus :=
        ⟨s.level_bonus.fields.set a (s.level_bonus.fields.get a + amt),
          s.level_bonus.bonus_type⟩ }

/-- The apply loop of `add_bonus`: increments applied one entry at a time,
each reading the target's then-current field value. -/
def v2Apply (bt : BonusType) (s : CharacterStats) : List (Ability × PyVal) → CharacterStats
  | [] => s
  | (a, amt) :: rest => v2Apply bt (s.addToBonus bt a amt.toIntD) rest

/-- `CharacterStats.add_bonus` of version 2: the `bonus_map` membership test
(every `BonusType` member is a key, so only a non-member argument, modelled as
`none`, raises "Invalid bonus type"), then the validation loop, then the apply
loop.  The result pairs the raised error (if any) with the object state at the
moment the call returns or the exception propagates; the validation loop only
reads the state, so on error the state is the input state. -/
def v2AddBonus (s : CharacterStats) (btArg : Option BonusType)
    (incs : List (Ability × PyVal)) : Option V2Err × CharacterStats :=
  match btArg with
  | none => (some .invalidBonusType, s)
  | some bt =>
    match v2Validate s incs with
    | some e => (some e, s)
    | none => (none, v2Apply bt s incs)

/-! ## Version 1: ability_score.py (repository root) -/

/-- `ComponentScore` enum of version 1: RACIAL_BONUS, FEAT_BONUS, LEVEL_BONUS. -/
inductive ComponentScore where
  | racial_bonus
  | feat_bonus
  | level_bonus
  deriving DecidableEq, Repr

/-- `MAX_TOTAL` of version 1: the 20-point cap. -/
def MAX_TOTAL : Int := 20

/-- The distinct `raise ValueError(...)` sites of version 1. -/
inductive V1Err where
  | baseNotNonNegInt
  | racialNotInt
  | featNotInt
  | levelNotInt
  | invalidComponent
  | incrementNotInteger (a : Ability)
  | incrementNotPositive (a : Ability)
  | exceedsMax (a : Ability) (newTotal cap : Int)
  deriving DecidableEq, Repr

/-- `ScoreBase.__init__` of version 1: one combined
`all(isinstance(x, int) and x >= 0 for x in [...])` check; a single ValueError
covers both a non-int and a negative field. -/
def ScoreBase.init (p : PyFields) : Except V1Err AbilityFields :=
  if p.asList.all (fun v => v.isInt && decide (0 ≤ v.toIntD)) then .ok p.toFieldsD
  else .error .baseNotNonNegInt

/-- `RacialBonus.__init__` of version 1: checks only that every field is an
int; negative values are accepted. -/
def RacialBonus.init (p : PyFields) : Except V1Err AbilityFields :=
  if p.asList.all PyVal.isInt then .ok p.toFieldsD else .error .racialNotInt

/-- `FeatBonus.__init__` of version 1: same integer-only check. -/
def FeatBonus.init (p : PyFields) : Except V1Err AbilityFields :=
  if p.asList.all PyVal.isInt then .ok p.toFieldsD else .error .featNotInt

/-- `LevelBonus.__init__` of version 1: same integer-only check. -/
def LevelBonus.init (p : PyFields) : Except V1Err AbilityFields :=
  if p.asList.all PyVal.isInt then .ok p.toFieldsD else .error .levelNotInt

/-- The state of a version-1 `AbilityScores` object.  This version has no
category tags on its bonus sets. -/
structure AbilityScores where
  score_base : AbilityFields
  racial_bonus : AbilityFields
  feat_bonus : AbilityFields
  level_bonus : AbilityFields
  deriving DecidableEq, Repr

/-- `AbilityScores.__init__` of version 1: `racial or RacialBonus()` etc.
replaces only None by the all-zero default (bonus objects are always truthy).
No slot check of any kind is performed. -/
def AbilityScores.init (base : AbilityFields)
    (racial feat level : Option AbilityFields) : AbilityScores :=
  ⟨base, racial.getD AbilityFields.zero, feat.getD AbilityFields.zero,
    level.getD AbilityFields.zero⟩

/-- The component list `_sum_scores` iterates over. -/
def AbilityScores.components (s : AbilityScores) : List AbilityFields :=
  [s.score_base, s.racial_bonus, s.feat_bonus, s.level_bonus]

/-- `AbilityScores._sum_scores`: sums the ability's field over the four
components; the `isinstance(c, CharacterAbility)` filter in the source keeps
all four components, which are all CharacterAbility instances. -/
def AbilityScores.sum_scores (s : AbilityScores) (a : Ability) : Int :=
  (s.components.map (fun c => c.get a)).sum

/-- `AbilityScores.strength_mod`: `math.floor((value - 10) / 2)` on the
strength total. -/
def AbilityScores.strength_mod (s : AbilityScores) : Int :=
  ⌊((s.sum_scores .strength : ℚ) - 10) / 2⌋

/-- `AbilityScores.dexterity_mod`. -/
def AbilityScores.dexterity_mod (s : AbilityScores) : Int :=
  ⌊((s.sum_scores .dexterity : ℚ) - 10) / 2⌋

/-- `AbilityScores.constitution_mod`. -/
def AbilityScores.constitution_mod (s : AbilityScores) : Int :=
  ⌊((s.sum_scores .constitution : ℚ) - 10) / 2⌋

/-- `AbilityScores.wisdom_mod`. -/
def AbilityScores.wisdom_mod (s : AbilityScores) : Int :=
  ⌊((s.sum_scores .wisdom : ℚ) - 10) / 2⌋

/-- `AbilityScores.intelligence_mod`. -/
def AbilityScores.intelligence_mod (s : AbilityScores) : Int :=
  ⌊((s.sum_scores .intelligence : ℚ) - 10) / 2⌋

/-- `AbilityScores.charisma_mod`. -/
def AbilityScores.charisma_mod (s : AbilityScores) : Int :=
  ⌊((s.sum_scores .charisma : ℚ) - 10) / 2⌋

/-- First validation loop of `increment_attribute` (version 1): per entry, the
isinstance int check ("must be an integer"), then the positivity check ("must
be positive"); distinct ValueErrors.  This loop runs over the whole batch
before any cap check. -/
def v1ValidatePos : List (Ability × PyVal) → Option V1Err
  | [] => none
  | (a, amt) :: rest =>
    match amt with
    | .nonInt => some (.incrementNotInteger a)
    | .int n => if n ≤ 0 then some (.incrementNotPositive a) else v1ValidatePos rest

/-- Second validation loop of `increment_attribute`: per entry, the cap check
with `_sum_scores` on the current (pre-mutation) state. -/
def v1ValidateCap (s : AbilityScores) : List (Ability × PyVal) → Option V1Err
  | [] => none
  | (a, amt) :: rest =>
    if s.sum_scores a + amt.toIntD > MAX_TOTAL then
      some (.exceedsMax a (s.sum_scores a + amt.toIntD) MAX_TOTAL)
    else v1ValidateCap s rest

/-- One `setattr(target, attr, getattr(target, attr) + amount)` on the
component selected by `component_map[component]` (the base set is not
reachable). -/
def AbilityScores.addToComponent (s : AbilityScores) (c : ComponentScore)
    (a : Ability) (amt : Int) : AbilityScores :=
  match c with
  | .racial_bonus =>
    { s with racial_bonus := s.racial_bonus.set a (s.racial_bonus.get a + amt) }
  | .feat_bonus =>
    { s with feat_bonus := s.feat_bonus.set a (s.feat_bonus.get a + amt) }
  | .level_bonus =>
    { s with level_bonus := s.level_bonus.set a (s.level_bonus.get a + amt) }

/-- Third loop of `increment_attribute`: apply each increment in order. -/
def v1Apply (c : ComponentScore) (s : AbilityScores) :
    List (Ability × PyVal) → AbilityScores
  | [] => s
  | (a, amt) :: rest => v1Apply c (s.addToComponent c a amt.toIntD) rest

/-- `AbilityScores.increment_attribute` of version 1: the `component_map`
membership test (every `ComponentScore` member is a key, so only a non-member
argument, modelled as `none`, raises "Invalid component"; the
`not isinstance(component, ComponentScore)` disjunct is then unreachable),
then the two validation loops in order, then the apply loop.  As in version 2,
the validation loops only read the state, so on error the returned state is
the input state. -/
def v1Increment (s : AbilityScores) (compArg : Option ComponentScore)
    (incs : List (Ability × PyVal)) : Option V1Err × AbilityScores :=
  match compArg with
  | none => (some .invalidComponent, s)
  | some c =>
    match v1ValidatePos incs with
    | some e => (some e, s)
    | none =>
      match v1ValidateCap s incs with
      | some e => (some e, s)
      | none => (none, v1Apply c s incs)

/-! ## Glue between the two versions (for the refinement claim) -/

/-- The version-2 bonus category corresponding to a version-1 component. -/
def ComponentScore.toBonusType : ComponentScore → BonusType
  | .racial_bonus => .racial
  | .feat_bonus => .feat
  | .level_bonus => .level

/-- The version-2 state holding the same field values as a version-1 state,
with each slot tagged by its own category. -/
def AbilityScores.toV2 (s : AbilityScores) : CharacterStats :=
  ⟨s.score_base, ⟨s.racial_bonus, .racial⟩, ⟨s.feat_bonus, .feat⟩,
    ⟨s.level_bonus, .level⟩⟩

/-! ## Concrete states used by scenarios and witnesses -/

/-- The base set of the specification scenario: Base(str=14, dex=12, con=10,
wis=8, int=16, cha=10). -/
def exampleBase : AbilityFields := ⟨14, 12, 10, 8, 16, 10⟩

/-- The racial set of the specification scenario: Racial(str=2, int=2). -/
def exampleRacial : AbilityBonus := ⟨⟨2, 0, 0, 0, 2, 0⟩, .racial⟩

/-- The version-2 state of the specification scenario. -/
def exampleStats : CharacterStats :=
  ⟨exampleBase, exampleRacial, defaultBonus .feat, defaultBonus .level⟩

/-- The version-1 state with the same field values. -/
def exampleScores : AbilityScores :=
  ⟨exampleBase, ⟨2, 0, 0, 0, 2, 0⟩, AbilityFields.zero, AbilityFields.zero⟩

/-- A base set realizing totals 7, 9, 10, 20 on strength, dexterity,
constitution, charisma. -/
def parityBase : AbilityFields := ⟨7, 9, 10, 0, 0, 20⟩

/-- The version-2 state over `parityBase` with all-zero bonuses. -/
def parityStats : CharacterStats :=
  ⟨parityBase, defaultBonus .racial, defaultBonus .feat, defaultBonus .level⟩

/-- A base set whose strength already exceeds the 20-point cap. -/
def base25 : AbilityFields := ⟨25, 10, 10, 10, 10, 10⟩

/-- The version-2 state over `base25` with all-zero bonuses. -/
def stats25 : CharacterStats :=
  ⟨base25, defaultBonus .racial, defaultBonus .feat, defaultBonus .level⟩

/-! ## Helper lemmas -/

theorem Ability.forall_iff (P : Ability → Prop) :
    (∀ a, P a) ↔ P .strength ∧ P .dexterity ∧ P .constitution ∧ P .intelligence ∧
      P .wisdom ∧ P .charisma := by
  constructor
  · intro h
    exact ⟨h _, h _, h _, h _, h _, h _⟩
  · rintro ⟨h1, h2, h3, h4, h5, h6⟩ a
    cases a <;> assumption

theorem Ability.mem_enumOrder (a : Ability) : a ∈ abilityEnumOrder := by
  cases a <;> simp [abilityEnumOrder]

theorem PyFields.get_mem_asList (p : PyFields) (a : Ability) : p.get a ∈ p.asList := by
  cases a <;> simp [PyFields.get, PyFields.asList]

/-- Floor of the exact rational halving agrees with integer floor division. -/
theorem floor_half_int (k : Int) : ⌊((k : ℚ)) / 2⌋ = k.fdiv 2 := by
  have h := Rat.floor_intCast_div_natCast k 2
  have h2 : k.fdiv 2 = k / 2 := Int.fdiv_eq_ediv k (by norm_num)
  rw [h2]
  simpa using h

theorem total_score_eq (s : CharacterStats) (a : Ability) :
    s.total_score a = s.base_abilities.get a + s.racial_bonus.fields.get a +
      s.feat_bonus.fields.get a + s.level_bonus.fields.get a := by
  simp [CharacterStats.total_score, CharacterStats.components]
  ring

theorem sum_scores_eq (s : AbilityScores) (a : Ability) :
    s.sum_scores a = s.score_base.get a + s.racial_bonus.get a +
      s.feat_bonus.get a + s.level_bonus.get a := by
  simp [AbilityScores.sum_scores, AbilityScores.components]
  ring

theorem modifier_eq_fdiv (s : CharacterStats) (a : Ability) :
    s.modifier a = (s.total_score a - 10).fdiv 2 := by
  have : ((s.total_score a : ℚ) - 10) = ((s.total_score a - 10 : Int) : ℚ) := by
    push_cast; ring
  rw [CharacterStats.modifier, this, floor_half_int]

theorem v2Validate_eq_none_iff (s : CharacterStats) (incs : List (Ability × PyVal)) :
    v2Validate s incs = none ↔
      ∀ x ∈ incs, ∃ n : Int, x.2 = .int n ∧ 0 < n ∧ s.total_score x.1 + n ≤ MAX_SCORE := by
  induction incs with
  | nil => simp [v2Validate]
  | cons hd tl ih =>
    obtain ⟨a, amt⟩ := hd
    cases amt with
    | nonInt =>
      rw [show v2Validate s ((a, PyVal.nonInt) :: tl) = some (.invalidIncrement a) from by
        simp [v2Validate, PyVal.isInt]]
      constructor
      · intro h
        exact absurd h (by simp)
      · intro h
        exfalso
        obtain ⟨m, hm, _, _⟩ := h (a, .nonInt) (List.mem_cons_self _ _)
        cases hm
    | int n =>
      by_cases hpos : n ≤ 0
      · rw [show v2Validate s ((a, PyVal.int n) :: tl) = some (.invalidIncrement a) from by
          simp [v2Validate, PyVal.isInt, PyVal.toIntD, hpos]]
        constructor
        · intro h
          exact absurd h (by simp)
        · intro h
          exfalso
          obtain ⟨m, hm, hmpos, _⟩ := h (a, .int n) (List.mem_cons_self _ _)
          injection hm with hnm
          omega
      · by_cases hcap : s.total_score a + n > MAX_SCORE
        · rw [show v2Validate s ((a, PyVal.int n) :: tl) =
              some (.capExceeded a (s.total_score a + n) MAX_SCORE) from by
            simp [v2Validate, PyVal.isInt, PyVal.toIntD, hpos, hcap]]
          constructor
          · intro h
            exact absurd h (by simp)
          · intro h
            exfalso
            obtain ⟨m, hm, _, hmcap⟩ := h (a, .int n) (List.mem_cons_self _ _)
            injection hm with hnm
            dsimp only at hmcap
            omega
        · rw [show v2Validate s ((a, PyVal.int n) :: tl) = v2Validate s tl from by
            simp [v2Validate, PyVal.isInt, PyVal.toIntD, hpos, hcap]]
          rw [ih]
          constructor
          · intro h x hx
            rcases List.mem_cons.mp hx with hx1 | hx2
            · subst hx1
              refine ⟨n, rfl, by omega, ?_⟩
              show s.total_score a + n ≤ MAX_SCORE
              omega
            · exact h x hx2
          · intro h x hx
            exact h x (List.mem_cons_of_mem _ hx)

theorem v1ValidatePos_eq_none_iff (incs : List (Ability × PyVal)) :
    v1ValidatePos incs = none ↔ ∀ x ∈ incs, ∃ n : Int, x.2 = .int n ∧ 0 < n := by
  induction incs with
  | nil => simp [v1ValidatePos]
  | cons hd tl ih =>
    obtain ⟨a, amt⟩ := hd
    cases amt with
    | nonInt =>
      rw [show v1ValidatePos ((a, PyVal.nonInt) :: tl) = some (.incrementNotInteger a) from by
        simp [v1ValidatePos]]
      constructor
      · intro h
        exact absurd h (by simp)
      · intro h
        exfalso
        obtain ⟨m, hm, _⟩ := h (a, .nonInt) (List.mem_cons_self _ _)
        cases hm
    | int n =>
      by_cases hpos : n ≤ 0
      · rw [show v1ValidatePos ((a, PyVal.int n) :: tl) = some (.incrementNotPositive a) from by
          simp [v1ValidatePos, hpos]]
        constructor
        · intro h
          exact absurd h (by simp)
        · intro h
          exfalso
          obtain ⟨m, hm, hmpos⟩ := h (a, .int n) (List.mem_cons_self _ _)
          injection hm with hnm
          omega
      · rw [show v1ValidatePos ((a, PyVal.int n) :: tl) = v1ValidatePos tl from by
          simp [v1ValidatePos, hpos]]
        rw [ih]
        constructor
        · intro h x hx
          rcases List.mem_cons.mp hx with hx1 | hx2
          · subst hx1
            exact ⟨n, rfl, by omega⟩
          · exact h x hx2
        · intro h x hx
          exact h x (List.mem_cons_of_mem _ hx)

theorem v1ValidateCap_eq_none_iff (s : AbilityScores) (incs : List (Ability × PyVal)) :
    v1ValidateCap s incs = none ↔
      ∀ x ∈ incs, s.sum_scores x.1 + x.2.toIntD ≤ MAX_TOTAL := by
  induction incs with
  | nil => simp [v1ValidateCap]
  | cons hd tl ih =>
    obtain ⟨a, amt⟩ := hd
    by_cases hcap : s.sum_scores a + amt.toIntD > MAX_TOTAL
    · rw [show v1ValidateCap s ((a, amt) :: tl) =
          some (.exceedsMax a (s.sum_scores a + amt.toIntD) MAX_TOTAL) from by
        simp [v1ValidateCap, hcap]]
      constructor
      · intro h
        exact absurd h (by simp)
      · intro h
        have hh := h (a, amt) (List.mem_cons_self _ _)
        dsimp only at hh
        omega
    · rw [show v1ValidateCap s ((a, amt) :: tl) = v1ValidateCap s tl from by
        simp [v1ValidateCap, hcap]]
      rw [ih]
      constructor
      · intro h x hx
        rcases List.mem_cons.mp hx with hx1 | hx2
        · subst hx1
          show s.sum_scores a + amt.toIntD ≤ MAX_TOTAL
          omega
        · exact h x hx2
      · intro h x hx
        exact h x (List.mem_cons_of_mem _ hx)

/-- On any raised error, version 2's add_bonus leaves the state untouched. -/
theorem v2AddBonus_error_state (s : CharacterStats) (btArg : Option BonusType)
    (incs : List (Ability × PyVal)) (e : V2Err)
    (h : (v2AddBonus s btArg incs).1 = some e) : (v2AddBonus s btArg incs).2 = s := by
  cases btArg with
  | none => rfl
  | some bt =>
    simp only [v2AddBonus] at h ⊢
    cases hv : v2Validate s incs with
    | none => simp [hv] at h
    | some e2 => simp [hv]

/-- On any raised error, version 1's increment_attribute leaves the state
untouched. -/
theorem v1Increment_error_state (s : AbilityScores) (compArg : Option ComponentScore)
    (incs : List (Ability × PyVal)) (e : V1Err)
    (h : (v1Increment s compArg incs).1 = some e) : (v1Increment s compArg incs).2 = s := by
  cases compArg with
  | none => rfl
  | some c =>
    simp only [v1Increment] at h ⊢
    cases hp : v1ValidatePos incs with
    | some e2 => simp [hp]
    | none =>
      cases hc : v1ValidateCap s incs with
      | some e2 => simp [hp, hc]
      | none => simp [hp, hc] at h

theorem v2CheckFields_base_ok_iff (p : PyFields) (l : List Ability) :
    v2CheckFields true p l = .ok () ↔ ∀ a ∈ l, (p.get a).isInt = true := by
  induction l with
  | nil => simp [v2CheckFields]
  | cons hd tl ih =>
    cases hv : p.get hd with
    | nonInt =>
      simp only [v2CheckFields, hv]
      constructor
      · intro h
        cases h
      · intro h
        have hh := h hd (List.mem_cons_self _ _)
        rw [hv] at hh
        simp [PyVal.isInt] at hh
    | int n =>
      rw [show v2CheckFields true p (hd :: tl) = v2CheckFields true p tl from by
        simp [v2CheckFields, hv]]
      rw [ih]
      constructor
      · intro h x hx
        rcases List.mem_cons.mp hx with hx1 | hx2
        · subst hx1
          rw [hv]
          rfl
        · exact h x hx2
      · intro h x hx
        exact h x (List.mem_cons_of_mem _ hx)

theorem v2CheckFields_bonus_ok_iff (p : PyFields) (l : List Ability) :
    v2CheckFields false p l = .ok () ↔
      ∀ a ∈ l, (p.get a).isInt = true ∧ 0 ≤ (p.get a).toIntD := by
  induction l with
  | nil => simp [v2CheckFields]
  | cons hd tl ih =>
    cases hv : p.get hd with
    | nonInt =>
      simp only [v2CheckFields, hv]
      constructor
      · intro h
        cases h
      · intro h
        have hh := (h hd (List.mem_cons_self _ _)).1
        rw [hv] at hh
        simp [PyVal.isInt] at hh
    | int n =>
      by_cases hneg : n < 0
      · rw [show v2CheckFields false p (hd :: tl) = .error (.negativeBonus hd) from by
          simp [v2CheckFields, hv, hneg]]
        constructor
        · intro h
          cases h
        · intro h
          have hh := (h hd (List.mem_cons_self _ _)).2
          rw [hv] at hh
          simp [PyVal.toIntD] at hh
          omega
      · rw [show v2CheckFields false p (hd :: tl) = v2CheckFields false p tl from by
          simp [v2CheckFields, hv, hneg]]
        rw [ih]
        constructor
        · intro h x hx
          rcases List.mem_cons.mp hx with hx1 | hx2
          · subst hx1
            rw [hv]
            exact ⟨rfl, by simp [PyVal.toIntD]; omega⟩
          · exact h x hx2
        · intro h x hx
          exact h x (List.mem_cons_of_mem _ hx)

theorem v2CheckFields_error_negativeBonus (isBase : Bool) (p : PyFields)
    (l : List Ability) (a : Ability)
    (h : v2CheckFields isBase p l = .error (.negativeBonus a)) :
    (p.get a).isInt = true ∧ (p.get a).toIntD < 0 := by
  induction l with
  | nil => cases h
  | cons hd tl ih =>
    cases hv : p.get hd with
    | nonInt =>
      rw [show v2CheckFields isBase p (hd :: tl) = .error (.mustBeInteger hd) from by
        simp [v2CheckFields, hv]] at h
      cases h
    | int n =>
      by_cases hneg : n < 0 ∧ isBase = false
      · rw [show v2CheckFields isBase p (hd :: tl) = .error (.negativeBonus hd) from by
          simp [v2CheckFields, hv, hneg.1, hneg.2]] at h
        injection h with h2
        injection h2 with h3
        subst h3
        rw [hv]
        exact ⟨rfl, by simp [PyVal.toIntD]; omega⟩
      · rw [show v2CheckFields isBase p (hd :: tl) = v2CheckFields isBase p tl from by
          simp only [v2CheckFields, hv]
          rw [if_neg hneg]] at h
        exact ih h

theorem v2CheckBaseNonNeg_ok_iff (p : PyFields) (l : List Ability) :
    v2CheckBaseNonNeg p l = .ok () ↔ ∀ a ∈ l, 0 ≤ (p.get a).toIntD := by
  induction l with
  | nil => simp [v2CheckBaseNonNeg]
  | cons hd tl ih =>
    by_cases hneg : (p.get hd).toIntD < 0
    · rw [show v2CheckBaseNonNeg p (hd :: tl) = .error (.negativeBase hd) from by
        simp [v2CheckBaseNonNeg, hneg]]
      constructor
      · intro h
        cases h
      · intro h
        have hh := h hd (List.mem_cons_self _ _)
        omega
    · rw [show v2CheckBaseNonNeg p (hd :: tl) = v2CheckBaseNonNeg p tl from by
        simp [v2CheckBaseNonNeg, hneg]]
      rw [ih]
      constructor
      · intro h x hx
        rcases List.mem_cons.mp hx with hx1 | hx2
        · subst hx1
          omega
        · exact h x hx2
      · intro h x hx
        exact h x (List.mem_cons_of_mem _ hx)

theorem v1_allInt_iff (p : PyFields) :
    (p.asList.all PyVal.isInt = true) ↔ ∀ a, (p.get a).isInt = true := by
  rw [Ability.forall_iff]
  simp [PyFields.asList, PyFields.get]
  tauto

theorem v1_allNonNegInt_iff (p : PyFields) :
    (p.asList.all (fun v => v.isInt && decide (0 ≤ v.toIntD)) = true) ↔
      ∀ a, (p.get a).isInt = true ∧ 0 ≤ (p.get a).toIntD := by
  rw [Ability.forall_iff]
  simp [PyFields.asList, PyFields.get]
  tauto

theorem toV2_total_score (s : AbilityScores) (a : Ability) :
    s.toV2.total_score a = s.sum_scores a := rfl

theorem addToComponent_toV2 (s : AbilityScores) (c : ComponentScore) (a : Ability)
    (amt : Int) :
    (s.addToComponent c a amt).toV2 = s.toV2.addToBonus c.toBonusType a amt := by
  cases c <;> rfl

theorem v1Apply_toV2 (c : ComponentScore) (s : AbilityScores)
    (incs : List (Ability × PyVal)) :
    (v1Apply c s incs).toV2 = v2Apply c.toBonusType s.toV2 incs := by
  induction incs generalizing s with
  | nil => rfl
  | cons hd tl ih =>
    obtain ⟨a, amt⟩ := hd
    simp only [v1Apply, v2Apply]
    rw [← addToComponent_toV2]
    exact ih _

theorem v2Validate_toV2_iff (s : AbilityScores) (incs : List (Ability × PyVal)) :
    v2Validate s.toV2 incs = none ↔
      (v1ValidatePos incs = none ∧ v1ValidateCap s incs = none) := by
  rw [v2Validate_eq_none_iff, v1ValidatePos_eq_none_iff, v1ValidateCap_eq_none_iff]
  constructor
  · intro h
    constructor
    · intro x hx
      obtain ⟨n, hn, hpos, _⟩ := h x hx
      exact ⟨n, hn, hpos⟩
    · intro x hx
      obtain ⟨n, hn, _, hcap⟩ := h x hx
      rw [toV2_total_score] at hcap
      rw [hn]
      simpa [PyVal.toIntD, MAX_TOTAL, MAX_SCORE] using hcap
  · rintro ⟨hp, hc⟩ x hx
    obtain ⟨n, hn, hpos⟩ := hp x hx
    refine ⟨n, hn, hpos, ?_⟩
    rw [toV2_total_score]
    have hh := hc x hx
    rw [hn] at hh
    simpa [PyVal.toIntD, MAX_TOTAL, MAX_SCORE] using hh

theorem incrementEquiv (s : AbilityScores) (c : ComponentScore)
    (incs : List (Ability × PyVal)) :
    ((v1Increment s (some c) incs).1 = none ↔
      (v2AddBonus s.toV2 (some c.toBonusType) incs).1 = none) ∧
    (v1Increment s (some c) incs).2.toV2 = (v2AddBonus s.toV2 (some c.toBonusType) incs).2 := by
  by_cases h1 : v1ValidatePos incs = none
  · by_cases h2 : v1ValidateCap s incs = none
    · have hv2 : v2Validate s.toV2 incs = none := (v2Validate_toV2_iff s incs).mpr ⟨h1, h2⟩
      refine ⟨?_, ?_⟩
      · simp [v1Increment, v2AddBonus, h1, h2, hv2]
      · simp [v1Increment, v2AddBonus, h1, h2, hv2, v1Apply_toV2]
    · have hv2 : v2Validate s.toV2 incs ≠ none := by
        intro h
        exact h2 ((v2Validate_toV2_iff s incs).mp h).2
      obtain ⟨e1, he1⟩ := Option.ne_none_iff_exists'.mp h2
      obtain ⟨e2, he2⟩ := Option.ne_none_iff_exists'.mp hv2
      refine ⟨?_, ?_⟩
      · simp [v1Increment, v2AddBonus, h1, he1, he2]
      · simp [v1Increment, v2AddBonus, h1, he1, he2]
  · have hv2 : v2Validate s.toV2 incs ≠ none := by
      intro h
      exact h1 ((v2Validate_toV2_iff s incs).mp h).1
    obtain ⟨e1, he1⟩ := Option.ne_none_iff_exists'.mp h1
    obtain ⟨e2, he2⟩ := Option.ne_none_iff_exists'.mp hv2
    refine ⟨?_, ?_⟩
    · simp [v1Increment, v2AddBonus, he1, he2]
    · simp [v1Increment, v2AddBonus, he1, he2]

theorem floor_sub_ten_half (k : Int) : ⌊((k : ℚ) - 10) / 2⌋ = (k - 10).fdiv 2 := by
  have hcast : ((k : ℚ) - 10) = ((k - 10 : Int) : ℚ) := by push_cast; ring
  rw [hcast, floor_half_int]

theorem v2CheckFields_allInt_result (p : PyFields) (l : List Ability)
    (hall : ∀ a ∈ l, (p.get a).isInt = true) :
    v2CheckFields false p l = .ok () ∨
      ∃ a ∈ l, v2CheckFields false p l = .error (.negativeBonus a) := by
  induction l with
  | nil => exact .inl rfl
  | cons hd tl ih =>
    have hhd := hall hd (List.mem_cons_self _ _)
    cases hv : p.get hd with
    | nonInt =>
      rw [hv] at hhd
      simp [PyVal.isInt] at hhd
    | int n =>
      by_cases hneg : n < 0
      · right
        exact ⟨hd, List.mem_cons_self _ _, by simp [v2CheckFields, hv, hneg]⟩
      · have step : v2CheckFields false p (hd :: tl) = v2CheckFields false p tl := by
          simp [v2CheckFields, hv, hneg]
        rcases ih (fun a ha => hall a (List.mem_cons_of_mem _ ha)) with h | ⟨a, ha, he⟩
        · left
          rw [step, h]
        · right
          exact ⟨a, List.mem_cons_of_mem _ ha, by rw [step, he]⟩

theorem AbilityBonus_init_isOk_iff (bt : BonusType) (p : PyFields) :
    (AbilityBonus.init bt p).isOk = true ↔
      ∀ a, (p.get a).isInt = true ∧ 0 ≤ (p.get a).toIntD := by
  unfold AbilityBonus.init
  cases hc : v2CheckFields false p abilityEnumOrder with
  | error e =>
    simp only [Except.isOk]
    constructor
    · intro h
      cases h
    · intro h
      have hok := (v2CheckFields_bonus_ok_iff p abilityEnumOrder).mpr
        (fun a _ => h a)
      rw [hc] at hok
      cases hok
  | ok u =>
    cases u
    simp only [Except.isOk]
    constructor
    · intro _
      exact fun a => (v2CheckFields_bonus_ok_iff p abilityEnumOrder).mp hc a
        (Ability.mem_enumOrder a)
    · intro _
      rfl

/-! ## Claims -/

/-- C1: whenever add_bonus (version 2) or increment_attribute (version 1)
raises any error — invalid category, non-positive or non-integer increment, or
cap excess — the entire state (base set and all three bonus sets, all six
fields each) equals the state before the call; in particular a batch holding
one valid and one cap-exceeding increment applies neither of the two. -/
theorem C1_failed_call_leaves_state_unchanged :
    (∀ (s : CharacterStats) (btArg : Option BonusType)
      (incs : List (Ability × PyVal)) (e : V2Err),
      (v2AddBonus s btArg incs).1 = some e → (v2AddBonus s btArg incs).2 = s) ∧
    (∀ (s : AbilityScores) (compArg : Option ComponentScore)
      (incs : List (Ability × PyVal)) (e : V1Err),
      (v1Increment s compArg incs).1 = some e → (v1Increment s compArg incs).2 = s) ∧
    v2AddBonus exampleStats (some .feat) [(.dexterity, .int 2), (.strength, .int 20)]
      = (some (.capExceeded .strength 36 MAX_SCORE), exampleStats) :=
  ⟨v2AddBonus_error_state, v1Increment_error_state, by decide⟩

/-- Witness for C1: an unknown-category call and a cap-exceeding call leave
the concrete example states unchanged. -/
theorem C1_witness :
    (v2AddBonus exampleStats none [(.strength, .int 1)]).2 = exampleStats ∧
    (v1Increment exampleScores (some .feat_bonus) [(.strength, .int 10)]).2
      = exampleScores := by
  constructor
  · exact C1_failed_call_leaves_state_unchanged.1 exampleStats none
      [(.strength, .int 1)] .invalidBonusType (by decide)
  · exact C1_failed_call_leaves_state_unchanged.2.1 exampleScores (some .feat_bonus)
      [(.strength, .int 10)] (.exceedsMax .strength 26 MAX_TOTAL) (by decide)

/-- C2: in both versions the modifier is floor((total - 10) / 2) with floor
toward negative infinity (integer floor division), for every state and every
ability; totals 7, 9, 10 and 20 give modifiers -2, -1, 0 and 5. -/
theorem C2_modifier_floor_division :
    (∀ (s : CharacterStats) (a : Ability),
      s.modifier a = (s.total_score a - 10).fdiv 2) ∧
    (∀ s : AbilityScores,
      s.strength_mod = (s.sum_scores .strength - 10).fdiv 2 ∧
      s.dexterity_mod = (s.sum_scores .dexterity - 10).fdiv 2 ∧
      s.constitution_mod = (s.sum_scores .constitution - 10).fdiv 2 ∧
      s.intelligence_mod = (s.sum_scores .intelligence - 10).fdiv 2 ∧
      s.wisdom_mod = (s.sum_scores .wisdom - 10).fdiv 2 ∧
      s.charisma_mod = (s.sum_scores .charisma - 10).fdiv 2) ∧
    (parityStats.total_score .strength = 7 ∧ parityStats.modifier .strength = -2) ∧
    (parityStats.total_score .dexterity = 9 ∧ parityStats.modifier .dexterity = -1) ∧
    (parityStats.total_score .constitution = 10 ∧
      parityStats.modifier .constitution = 0) ∧
    (parityStats.total_score .charisma = 20 ∧ parityStats.modifier .charisma = 5) := by
  refine ⟨modifier_eq_fdiv, ?_, ?_, ?_, ?_, ?_⟩
  · intro s
    exact ⟨floor_sub_ten_half _, floor_sub_ten_half _, floor_sub_ten_half _,
      floor_sub_ten_half _, floor_sub_ten_half _, floor_sub_ten_half _⟩
  · exact ⟨by decide, by rw [modifier_eq_fdiv]; decide⟩
  · exact ⟨by decide, by rw [modifier_eq_fdiv]; decide⟩
  · exact ⟨by decide, by rw [modifier_eq_fdiv]; decide⟩
  · exact ⟨by decide, by rw [modifier_eq_fdiv]; decide⟩

/-- C3: in both versions the total score of an ability is exactly the sum of
that ability's field in the four stored sets (base, racial, feat, level); this
equality holds after every successful add_bonus call, and the total is
unchanged by any failed add_bonus call. -/
theorem C3_total_score_sums_four_layers :
    (∀ (s : CharacterStats) (a : Ability),
      s.total_score a = s.base_abilities.get a + s.racial_bonus.fields.get a +
        s.feat_bonus.fields.get a + s.level_bonus.fields.get a) ∧
    (∀ (s : AbilityScores) (a : Ability),
      s.sum_scores a = s.score_base.get a + s.racial_bonus.get a +
        s.feat_bonus.get a + s.level_bonus.get a) ∧
    (∀ (s s2 : CharacterStats) (btArg : Option BonusType)
      (incs : List (Ability × PyVal)),
      v2AddBonus s btArg incs = (none, s2) →
      ∀ a, s2.total_score a = s2.base_abilities.get a + s2.racial_bonus.fields.get a +
        s2.feat_bonus.fields.get a + s2.level_bonus.fields.get a) ∧
    (∀ (s : CharacterStats) (btArg : Option BonusType)
      (incs : List (Ability × PyVal)) (e : V2Err),
      (v2AddBonus s btArg incs).1 = some e →
      ∀ a, (v2AddBonus s btArg incs).2.total_score a = s.total_score a) := by
  refine ⟨total_score_eq, sum_scores_eq, ?_, ?_⟩
  · intro s s2 btArg incs _ a
    exact total_score_eq s2 a
  · intro s btArg incs e h a
    rw [v2AddBonus_error_state s btArg incs e h]

/-- Witness for C3: the four-layer sum identity after a successful concrete
add_bonus call, and an unchanged total after a failed concrete call. -/
theorem C3_witness :
    ((v2AddBonus exampleStats (some .feat) [(.dexterity, .int 2)]).2.total_score .dexterity
      = (v2AddBonus exampleStats (some .feat)
          [(.dexterity, .int 2)]).2.base_abilities.get .dexterity
        + (v2AddBonus exampleStats (some .feat)
            [(.dexterity, .int 2)]).2.racial_bonus.fields.get .dexterity
        + (v2AddBonus exampleStats (some .feat)
            [(.dexterity, .int 2)]).2.feat_bonus.fields.get .dexterity
        + (v2AddBonus exampleStats (some .feat)
            [(.dexterity, .int 2)]).2.level_bonus.fields.get .dexterity) ∧
    (v2AddBonus exampleStats (some .feat) [(.strength, .int 20)]).2.total_score .strength
      = exampleStats.total_score .strength := by
  constructor
  · exact C3_total_score_sums_four_layers.2.2.1 exampleStats _ (some .feat)
      [(.dexterity, .int 2)] (by decide) .dexterity
  · exact C3_total_score_sums_four_layers.2.2.2 exampleStats (some .feat)
      [(.strength, .int 20)] (.capExceeded .strength 36 MAX_SCORE) (by decide) .strength

/-- C7: calling add_bonus (increment_attribute) with a category argument that
is not one of the three mutable categories — including any attempt to address
the base layer, which has no member in the category enum — fails with the
invalid-category error and changes no field of any value set. -/
theorem C7_unknown_category_rejected :
    (∀ (s : CharacterStats) (incs : List (Ability × PyVal)),
      v2AddBonus s none incs = (some .invalidBonusType, s)) ∧
    (∀ (s : AbilityScores) (incs : List (Ability × PyVal)),
      v1Increment s none incs = (some .invalidComponent, s)) :=
  ⟨fun _ _ => rfl, fun _ _ => rfl⟩

/-- C4 counterexample: in version 1 a RacialBonus with a negative strength
field is accepted (only integrality is checked there), so the claim that every
bonus-flavor construction with a negative field fails does not hold. -/
theorem C4_counterexample :
    RacialBonus.init (PyFields.ofInts (-1) 0 0 0 0 0) = .ok ⟨-1, 0, 0, 0, 0, 0⟩ := rfl

/-- C4 (amended): in version 2, AbilityBonus construction with all-integer
fields succeeds iff no field is negative; when some field is negative it fails
with the negative-for-bonuses error, and every such error pinpoints a genuinely
negative field; in version 1 the Racial/Feat/Level bonus constructors check
only integrality and accept negative integers. -/
theorem C4_amended_bonus_negativity :
    (∀ (bt : BonusType) (p : PyFields), (∀ a, (p.get a).isInt = true) →
      ((AbilityBonus.init bt p).isOk = true ↔ ∀ a, 0 ≤ (p.get a).toIntD)) ∧
    (∀ (bt : BonusType) (p : PyFields), (∀ a, (p.get a).isInt = true) →
      ¬(∀ a, 0 ≤ (p.get a).toIntD) →
      ∃ a, AbilityBonus.init bt p = .error (.negativeBonus a) ∧ (p.get a).toIntD < 0) ∧
    (∀ (bt : BonusType) (p : PyFields) (a : Ability),
      AbilityBonus.init bt p = .error (.negativeBonus a) → (p.get a).toIntD < 0) ∧
    (∀ p : PyFields, (∀ a, (p.get a).isInt = true) →
      RacialBonus.init p = .ok p.toFieldsD ∧ FeatBonus.init p = .ok p.toFieldsD ∧
        LevelBonus.init p = .ok p.toFieldsD) ∧
    AbilityBonus.init .racial (PyFields.ofInts (-1) 0 0 0 0 0)
      = .error (.negativeBonus .strength) := by
  refine ⟨?_, ?_, ?_, ?_, rfl⟩
  · intro bt p hall
    rw [AbilityBonus_init_isOk_iff]
    constructor
    · intro h a
      exact (h a).2
    · intro h a
      exact ⟨hall a, h a⟩
  · intro bt p hall hneg
    rcases v2CheckFields_allInt_result p abilityEnumOrder (fun a _ => hall a) with h | ⟨a, _, he⟩
    · exfalso
      apply hneg
      intro a
      exact ((v2CheckFields_bonus_ok_iff p abilityEnumOrder).mp h a
        (Ability.mem_enumOrder a)).2
    · refine ⟨a, ?_, (v2CheckFields_error_negativeBonus false p abilityEnumOrder a he).2⟩
      unfold AbilityBonus.init
      rw [he]
  · intro bt p a h
    unfold AbilityBonus.init at h
    cases hc : v2CheckFields false p abilityEnumOrder with
    | error e =>
      rw [hc] at h
      injection h with h2
      subst h2
      exact (v2CheckFields_error_negativeBonus false p abilityEnumOrder a hc).2
    | ok u =>
      rw [hc] at h
      cases h
  · intro p hall
    have h := (v1_allInt_iff p).mpr hall
    exact ⟨by simp [RacialBonus.init, h], by simp [FeatBonus.init, h],
      by simp [LevelBonus.init, h]⟩

/-- Witness for C4 (amended): a concrete all-non-negative bonus set is
accepted by both versions. -/
theorem C4_witness :
    (AbilityBonus.init .feat (PyFields.ofInts 1 2 3 4 5 6)).isOk = true ∧
    RacialBonus.init (PyFields.ofInts 1 2 3 4 5 6) = .ok ⟨1, 2, 3, 4, 5, 6⟩ := by
  constructor
  · exact (C4_amended_bonus_negativity.1 .feat (PyFields.ofInts 1 2 3 4 5 6)
      (by decide)).mpr (by decide)
  · exact (C4_amended_bonus_negativity.2.2.2.1 (PyFields.ofInts 1 2 3 4 5 6)
      (by decide)).1

/-- C5 counterexample: version 2's add_bonus does not validate positivity of
the whole batch before any cap check: on a batch whose first entry exceeds the
cap and whose second entry is a negative increment, it raises the cap error,
not the invalid-increment error the claimed two-phase order prescribes. -/
theorem C5_counterexample :
    (v2AddBonus exampleStats (some .feat)
        [(.strength, .int 10), (.dexterity, .int (-1))]).1
      = some (.capExceeded .strength 26 MAX_SCORE) ∧
    (v2AddBonus exampleStats (some .feat)
        [(.strength, .int 10), (.dexterity, .int (-1))]).1
      ≠ some (.invalidIncrement .dexterity) := by
  decide

/-- C5 (amended): version 1 follows the claimed order — it validates every
increment of the batch to be a positive integer first and only then runs the
cap checks, all against pre-mutation totals; version 2 instead checks each
entry in batch order, positivity then cap within an entry, so a cap error on
an earlier entry precedes an invalid-increment error on a later entry.  In
both versions the cap error names the ability, the prospective total and the
cap value 20, every cap check uses pre-mutation totals, and increments are
applied only after every entry passes both checks. -/
theorem C5_amended_validation_order :
    (∀ (s : AbilityScores) (c : ComponentScore) (incs : List (Ability × PyVal))
      (e : V1Err),
      v1ValidatePos incs = some e → (v1Increment s (some c) incs).1 = some e) ∧
    (∀ (s : AbilityScores) (c : ComponentScore) (incs : List (Ability × PyVal)),
      v1ValidatePos incs = none →
      (v1Increment s (some c) incs).1 = v1ValidateCap s incs) ∧
    (∀ (s : CharacterStats) (bt : BonusType) (incs : List (Ability × PyVal)),
      (v2AddBonus s (some bt) incs).1 = v2Validate s incs) ∧
    (∀ (s : CharacterStats) (incs : List (Ability × PyVal)),
      v2Validate s incs = none ↔
        ∀ x ∈ incs, ∃ n : Int, x.2 = .int n ∧ 0 < n ∧
          s.total_score x.1 + n ≤ MAX_SCORE) ∧
    (∀ (s : CharacterStats) (a : Ability) (n : Int) (tl : List (Ability × PyVal)),
      0 < n → s.total_score a + n > MAX_SCORE →
      v2Validate s ((a, .int n) :: tl)
        = some (.capExceeded a (s.total_score a + n) MAX_SCORE)) ∧
    (∀ (s : CharacterStats) (bt : BonusType) (incs : List (Ability × PyVal)),
      v2Validate s incs = none →
      v2AddBonus s (some bt) incs = (none, v2Apply bt s incs)) := by
  refine ⟨?_, ?_, ?_, v2Validate_eq_none_iff, ?_, ?_⟩
  · intro s c incs e h
    simp [v1Increment, h]
  · intro s c incs h
    cases hc : v1ValidateCap s incs <;> simp [v1Increment, h, hc]
  · intro s bt incs
    cases hv : v2Validate s incs <;> simp [v2AddBonus, hv]
  · intro s a n tl hpos hcap
    have h1 : ¬(n ≤ 0) := by omega
    simp [v2Validate, PyVal.isInt, PyVal.toIntD, h1, hcap]
  · intro s bt incs h
    simp [v2AddBonus, h]

/-- Witness for C5 (amended): on the counterexample batch version 1 raises the
positivity error for the later entry, and a concrete cap error names the
ability, the prospective total 26 and the cap 20. -/
theorem C5_witness :
    (v1Increment exampleScores (some .feat_bonus)
        [(.strength, .int 10), (.dexterity, .int (-1))]).1
      = some (.incrementNotPositive .dexterity) ∧
    v2Validate exampleStats [(.strength, .int 10)]
      = some (.capExceeded .strength 26 MAX_SCORE) := by
  constructor
  · exact C5_amended_validation_order.1 exampleScores .feat_bonus
      [(.strength, .int 10), (.dexterity, .int (-1))]
      (.incrementNotPositive .dexterity) (by decide)
  · exact C5_amended_validation_order.2.2.2.2.1 exampleStats .strength 10 []
      (by decide) (by decide)

/-- C6: constructing version 2's CharacterStats with a supplied bonus set whose
tag does not match its slot fails with the corresponding mismatch error and
produces no object; when all tags match, construction succeeds and each stored
bonus set carries the tag of its slot (defaults included). -/
theorem C6_category_mismatch :
    (∀ (base : AbilityFields) (r : AbilityBonus) (feat level : Option AbilityBonus),
      r.bonus_type ≠ .racial →
      CharacterStats.init base (some r) feat level = .error .racialMismatch) ∧
    (∀ (base : AbilityFields) (racial : Option AbilityBonus) (f : AbilityBonus)
      (level : Option AbilityBonus),
      (racial.getD (defaultBonus .racial)).bonus_type = .racial →
      f.bonus_type ≠ .feat →
      CharacterStats.init base racial (some f) level = .error .featMismatch) ∧
    (∀ (base : AbilityFields) (racial feat : Option AbilityBonus) (l : AbilityBonus),
      (racial.getD (defaultBonus .racial)).bonus_type = .racial →
      (feat.getD (defaultBonus .feat)).bonus_type = .feat →
      l.bonus_type ≠ .level →
      CharacterStats.init base racial feat (some l) = .error .levelMismatch) ∧
    (∀ (base : AbilityFields) (r f l : AbilityBonus),
      r.bonus_type = .racial → f.bonus_type = .feat → l.bonus_type = .level →
      CharacterStats.init base (some r) (some f) (some l) = .ok ⟨base, r, f, l⟩) ∧
    (∀ base : AbilityFields, CharacterStats.init base none none none
      = .ok ⟨base, defaultBonus .racial, defaultBonus .feat, defaultBonus .level⟩) ∧
    (∀ (base : AbilityFields) (ro fo lo : Option AbilityBonus) (s : CharacterStats),
      CharacterStats.init base ro fo lo = .ok s →
      s.racial_bonus.bonus_type = .racial ∧ s.feat_bonus.bonus_type = .feat ∧
        s.level_bonus.bonus_type = .level) := by
  refine ⟨?_, ?_, ?_, ?_, ?_, ?_⟩
  · intro base r feat level h
    simp [CharacterStats.init, h]
  · intro base racial f level hr h
    simp [CharacterStats.init, hr, h]
  · intro base racial feat l hr hf h
    simp [CharacterStats.init, hr, hf, h]
  · intro base r f l hr hf hl
    simp [CharacterStats.init, hr, hf, hl]
  · intro base
    simp [CharacterStats.init, defaultBonus]
  · intro base ro fo lo s h
    simp only [CharacterStats.init] at h
    split_ifs at h with h1 h2 h3
    rw [Except.ok.injEq] at h
    subst h
    exact ⟨not_not.mp h1, not_not.mp h2, not_not.mp h3⟩

/-- Witness for C6: a Feat-tagged set passed as the Racial argument is
rejected with the racial mismatch error, and a fully matched construction
succeeds with slot-tagged stored sets. -/
theorem C6_witness :
    CharacterStats.init exampleBase (some (defaultBonus .feat)) none none
      = .error .racialMismatch ∧
    CharacterStats.init exampleBase (some exampleRacial) (some (defaultBonus .feat))
        (some (defaultBonus .level))
      = .ok ⟨exampleBase, exampleRacial, defaultBonus .feat, defaultBonus .level⟩ := by
  constructor
  · exact C6_category_mismatch.1 exampleBase (defaultBonus .feat) none none (by decide)
  · exact C6_category_mismatch.2.2.2.1 exampleBase exampleRacial (defaultBonus .feat)
      (defaultBonus .level) (by decide) (by decide) (by decide)

theorem v2CheckBaseNonNeg_result (p : PyFields) (l : List Ability) :
    v2CheckBaseNonNeg p l = .ok () ∨
      ∃ a ∈ l, v2CheckBaseNonNeg p l = .error (.negativeBase a) ∧
        (p.get a).toIntD < 0 := by
  induction l with
  | nil => exact .inl rfl
  | cons hd tl ih =>
    by_cases hneg : (p.get hd).toIntD < 0
    · right
      exact ⟨hd, List.mem_cons_self _ _, by simp [v2CheckBaseNonNeg, hneg], hneg⟩
    · have step : v2CheckBaseNonNeg p (hd :: tl) = v2CheckBaseNonNeg p tl := by
        simp [v2CheckBaseNonNeg, hneg]
      rcases ih with h | ⟨a, ha, he, hn⟩
      · left
        rw [step, h]
      · right
        exact ⟨a, List.mem_cons_of_mem _ ha, by rw [step, he], hn⟩

theorem v2CheckFields_base_result (p : PyFields) (l : List Ability) :
    v2CheckFields true p l = .ok () ∨
      ∃ a ∈ l, v2CheckFields true p l = .error (.mustBeInteger a) ∧
        (p.get a).isInt = false := by
  induction l with
  | nil => exact .inl rfl
  | cons hd tl ih =>
    cases hv : p.get hd with
    | nonInt =>
      right
      refine ⟨hd, List.mem_cons_self _ _, by simp [v2CheckFields, hv], ?_⟩
      rw [hv]
      rfl
    | int n =>
      have step : v2CheckFields true p (hd :: tl) = v2CheckFields true p tl := by
        simp [v2CheckFields, hv]
      rcases ih with h | ⟨a, ha, he, hn⟩
      · left
        rw [step, h]
      · right
        exact ⟨a, List.mem_cons_of_mem _ ha, by rw [step, he], hn⟩

theorem BaseAbilities_init_ok_iff (p : PyFields) :
    (∃ f, BaseAbilities.init p = .ok f) ↔
      ∀ a, (p.get a).isInt = true ∧ 0 ≤ (p.get a).toIntD := by
  constructor
  · rintro ⟨f, hf⟩ a
    unfold BaseAbilities.init at hf
    cases hc : v2CheckFields true p abilityEnumOrder with
    | error e =>
      rw [hc] at hf
      cases hf
    | ok u =>
      cases u
      rw [hc] at hf
      cases hb : v2CheckBaseNonNeg p abilityEnumOrder with
      | error e =>
        rw [hb] at hf
        cases hf
      | ok u2 =>
        exact ⟨(v2CheckFields_base_ok_iff p _).mp hc a (Ability.mem_enumOrder a),
          (v2CheckBaseNonNeg_ok_iff p _).mp hb a (Ability.mem_enumOrder a)⟩
  · intro h
    have hcf : v2CheckFields true p abilityEnumOrder = .ok () :=
      (v2CheckFields_base_ok_iff p _).mpr (fun a _ => (h a).1)
    have hcb : v2CheckBaseNonNeg p abilityEnumOrder = .ok () :=
      (v2CheckBaseNonNeg_ok_iff p _).mpr (fun a _ => (h a).2)
    refine ⟨p.toFieldsD, ?_⟩
    unfold BaseAbilities.init
    rw [hcf, hcb]

theorem ScoreBase_init_ok_iff (p : PyFields) :
    (∃ f, ScoreBase.init p = .ok f) ↔
      ∀ a, (p.get a).isInt = true ∧ 0 ≤ (p.get a).toIntD := by
  rw [← v1_allNonNegInt_iff]
  constructor
  · rintro ⟨f, hf⟩
    by_contra hc
    have hfalse : p.asList.all (fun v => v.isInt && decide (0 ≤ v.toIntD)) = false :=
      Bool.eq_false_iff.mpr hc
    simp [ScoreBase.init, hfalse] at hf
  · intro h
    exact ⟨p.toFieldsD, by simp [ScoreBase.init, h]⟩

theorem ScoreBase_init_ok_val (p : PyFields) (f : AbilityFields)
    (h : ScoreBase.init p = .ok f) : f = p.toFieldsD := by
  unfold ScoreBase.init at h
  split_ifs at h
  injection h with h2
  exact h2.symm

theorem BaseAbilities_init_ok_val (p : PyFields) (f : AbilityFields)
    (h : BaseAbilities.init p = .ok f) : f = p.toFieldsD := by
  unfold BaseAbilities.init at h
  cases hc : v2CheckFields true p abilityEnumOrder with
  | error e =>
    rw [hc] at h
    cases h
  | ok u =>
    cases u
    rw [hc] at h
    cases hb : v2CheckBaseNonNeg p abilityEnumOrder with
    | error e =>
      rw [hb] at h
      cases h
    | ok u2 =>
      rw [hb] at h
      injection h with h2
      exact h2.symm

/-- C8: constructing a base-flavor set from six non-negative integers succeeds
in both versions and reading back every field through its ability identifier
yields exactly the supplied value (round-trip); with some negative integer
field construction fails — version 2 with the base-negativity error naming a
negative field, version 1 with its single combined non-negative-integer
ValueError — and with some non-integer field it also fails — version 2 with
the must-be-integer error, version 1 again with the combined ValueError. -/
theorem C8_base_roundtrip_and_validation :
    (∀ s d c w i ch : Int, 0 ≤ s → 0 ≤ d → 0 ≤ c → 0 ≤ w → 0 ≤ i → 0 ≤ ch →
      BaseAbilities.init (PyFields.ofInts s d c w i ch) = .ok ⟨s, d, c, w, i, ch⟩ ∧
      ScoreBase.init (PyFields.ofInts s d c w i ch) = .ok ⟨s, d, c, w, i, ch⟩ ∧
      (⟨s, d, c, w, i, ch⟩ : AbilityFields).get .strength = s ∧
      (⟨s, d, c, w, i, ch⟩ : AbilityFields).get .dexterity = d ∧
      (⟨s, d, c, w, i, ch⟩ : AbilityFields).get .constitution = c ∧
      (⟨s, d, c, w, i, ch⟩ : AbilityFields).get .wisdom = w ∧
      (⟨s, d, c, w, i, ch⟩ : AbilityFields).get .intelligence = i ∧
      (⟨s, d, c, w, i, ch⟩ : AbilityFields).get .charisma = ch) ∧
    (∀ p : PyFields, (∀ a, (p.get a).isInt = true) → (∃ a, (p.get a).toIntD < 0) →
      (∃ a, BaseAbilities.init p = .error (.negativeBase a) ∧ (p.get a).toIntD < 0) ∧
      ScoreBase.init p = .error .baseNotNonNegInt) ∧
    (∀ p : PyFields, (∃ a, (p.get a).isInt = false) →
      (∃ a, BaseAbilities.init p = .error (.mustBeInteger a) ∧ (p.get a).isInt = false) ∧
      ScoreBase.init p = .error .baseNotNonNegInt) := by
  refine ⟨?_, ?_, ?_⟩
  · intro s d c w i ch hs hd hc hw hi hch
    have hint : ∀ a, ((PyFields.ofInts s d c w i ch).get a).isInt = true := by
      intro a
      cases a <;> rfl
    have hnn : ∀ a, 0 ≤ ((PyFields.ofInts s d c w i ch).get a).toIntD := by
      intro a
      cases a <;> assumption
    have hcf : v2CheckFields true (PyFields.ofInts s d c w i ch) abilityEnumOrder
        = .ok () :=
      (v2CheckFields_base_ok_iff _ _).mpr (fun a _ => hint a)
    have hcb : v2CheckBaseNonNeg (PyFields.ofInts s d c w i ch) abilityEnumOrder
        = .ok () :=
      (v2CheckBaseNonNeg_ok_iff _ _).mpr (fun a _ => hnn a)
    have hall : (PyFields.ofInts s d c w i ch).asList.all
        (fun v => v.isInt && decide (0 ≤ v.toIntD)) = true :=
      (v1_allNonNegInt_iff _).mpr (fun a => ⟨hint a, hnn a⟩)
    refine ⟨?_, ?_, rfl, rfl, rfl, rfl, rfl, rfl⟩
    · unfold BaseAbilities.init
      rw [hcf, hcb]
      rfl
    · simp [ScoreBase.init, hall]
      rfl
  · intro p hint hneg
    obtain ⟨a0, ha0⟩ := hneg
    constructor
    · have hcf : v2CheckFields true p abilityEnumOrder = .ok () :=
        (v2CheckFields_base_ok_iff p _).mpr (fun a _ => hint a)
      rcases v2CheckBaseNonNeg_result p abilityEnumOrder with h | ⟨a, _, he, hn⟩
      · exfalso
        have := (v2CheckBaseNonNeg_ok_iff p _).mp h a0 (Ability.mem_enumOrder a0)
        omega
      · refine ⟨a, ?_, hn⟩
        unfold BaseAbilities.init
        rw [hcf, he]
    · have hfalse : p.asList.all (fun v => v.isInt && decide (0 ≤ v.toIntD)) = false := by
        rw [Bool.eq_false_iff]
        intro hall
        have := ((v1_allNonNegInt_iff p).mp hall a0).2
        omega
      simp [ScoreBase.init, hfalse]
  · intro p hni
    obtain ⟨a0, ha0⟩ := hni
    constructor
    · rcases v2CheckFields_base_result p abilityEnumOrder with h | ⟨a, _, he, hn⟩
      · exfalso
        have := (v2CheckFields_base_ok_iff p _).mp h a0 (Ability.mem_enumOrder a0)
        rw [this] at ha0
        cases ha0
      · refine ⟨a, ?_, hn⟩
        unfold BaseAbilities.init
        rw [he]
    · have hfalse : p.asList.all (fun v => v.isInt && decide (0 ≤ v.toIntD)) = false := by
        rw [Bool.eq_false_iff]
        intro hall
        have := ((v1_allNonNegInt_iff p).mp hall a0).1
        rw [this] at ha0
        cases ha0
      simp [ScoreBase.init, hfalse]

/-- Witness for C8: the concrete base set (3,4,5,6,7,8) round-trips in both
versions, and a -1 strength is rejected by both. -/
theorem C8_witness :
    (BaseAbilities.init (PyFields.ofInts 3 4 5 6 7 8) = .ok ⟨3, 4, 5, 6, 7, 8⟩ ∧
      ScoreBase.init (PyFields.ofInts 3 4 5 6 7 8) = .ok ⟨3, 4, 5, 6, 7, 8⟩ ∧
      (⟨3, 4, 5, 6, 7, 8⟩ : AbilityFields).get .strength = 3 ∧
      (⟨3, 4, 5, 6, 7, 8⟩ : AbilityFields).get .dexterity = 4 ∧
      (⟨3, 4, 5, 6, 7, 8⟩ : AbilityFields).get .constitution = 5 ∧
      (⟨3, 4, 5, 6, 7, 8⟩ : AbilityFields).get .wisdom = 6 ∧
      (⟨3, 4, 5, 6, 7, 8⟩ : AbilityFields).get .intelligence = 7 ∧
      (⟨3, 4, 5, 6, 7, 8⟩ : AbilityFields).get .charisma = 8) ∧
    ((∃ a, BaseAbilities.init (PyFields.ofInts (-1) 0 0 0 0 0)
        = .error (.negativeBase a) ∧
        ((PyFields.ofInts (-1) 0 0 0 0 0).get a).toIntD < 0) ∧
      ScoreBase.init (PyFields.ofInts (-1) 0 0 0 0 0) = .error .baseNotNonNegInt) := by
  constructor
  · exact C8_base_roundtrip_and_validation.1 3 4 5 6 7 8 (by decide) (by decide)
      (by decide) (by decide) (by decide) (by decide)
  · exact C8_base_roundtrip_and_validation.2.1 (PyFields.ofInts (-1) 0 0 0 0 0)
      (by decide) ⟨.strength, by decide⟩

/-- C9 counterexample: the two versions are not behaviorally equivalent on
bonus-set construction from identical field values: a dexterity bonus of -2 is
accepted by version 1's RacialBonus but rejected by version 2's AbilityBonus. -/
theorem C9_counterexample :
    (RacialBonus.init (PyFields.ofInts 0 (-2) 0 0 0 0)).isOk = true ∧
    (AbilityBonus.init .racial (PyFields.ofInts 0 (-2) 0 0 0 0)).isOk = false :=
  ⟨rfl, rfl⟩

/-- C9 (amended): the two versions agree on totals and modifiers for states
with identical field values, on base-set construction (same success condition
and same produced fields), on bonus-set construction restricted to
all-non-negative integer fields, and on the increment operation (same success
condition, identical resulting field values, both states unchanged on
failure); they differ on bonus-set construction with a negative field, which
version 1 accepts and version 2 rejects. -/
theorem C9_amended_equivalence :
    (∀ (s : AbilityScores) (a : Ability), s.toV2.total_score a = s.sum_scores a) ∧
    (∀ s : AbilityScores,
      s.toV2.modifier .strength = s.strength_mod ∧
      s.toV2.modifier .dexterity = s.dexterity_mod ∧
      s.toV2.modifier .constitution = s.constitution_mod ∧
      s.toV2.modifier .intelligence = s.intelligence_mod ∧
      s.toV2.modifier .wisdom = s.wisdom_mod ∧
      s.toV2.modifier .charisma = s.charisma_mod) ∧
    (∀ p : PyFields,
      ((∃ f, ScoreBase.init p = .ok f) ↔ (∃ f, BaseAbilities.init p = .ok f))) ∧
    (∀ (p : PyFields) (f g : AbilityFields),
      ScoreBase.init p = .ok f → BaseAbilities.init p = .ok g → f = g) ∧
    (∀ (bt : BonusType) (p : PyFields),
      (∀ a, (p.get a).isInt = true) → (∀ a, 0 ≤ (p.get a).toIntD) →
      AbilityBonus.init bt p = .ok ⟨p.toFieldsD, bt⟩ ∧
        RacialBonus.init p = .ok p.toFieldsD ∧ FeatBonus.init p = .ok p.toFieldsD ∧
        LevelBonus.init p = .ok p.toFieldsD) ∧
    (∀ (s : AbilityScores) (c : ComponentScore) (incs : List (Ability × PyVal)),
      ((v1Increment s (some c) incs).1 = none ↔
        (v2AddBonus s.toV2 (some c.toBonusType) incs).1 = none)) ∧
    (∀ (s : AbilityScores) (c : ComponentScore) (incs : List (Ability × PyVal)),
      (v1Increment s (some c) incs).2.toV2
        = (v2AddBonus s.toV2 (some c.toBonusType) incs).2) := by
  refine ⟨toV2_total_score, ?_, ?_, ?_, ?_, ?_, ?_⟩
  · intro s
    exact ⟨rfl, rfl, rfl, rfl, rfl, rfl⟩
  · intro p
    rw [ScoreBase_init_ok_iff, BaseAbilities_init_ok_iff]
  · intro p f g hf hg
    rw [ScoreBase_init_ok_val p f hf, BaseAbilities_init_ok_val p g hg]
  · intro bt p hint hnn
    have hcf : v2CheckFields false p abilityEnumOrder = .ok () :=
      (v2CheckFields_bonus_ok_iff p _).mpr (fun a _ => ⟨hint a, hnn a⟩)
    have hall := (v1_allInt_iff p).mpr hint
    exact ⟨by unfold AbilityBonus.init; rw [hcf], by simp [RacialBonus.init, hall],
      by simp [FeatBonus.init, hall], by simp [LevelBonus.init, hall]⟩
  · intro s c incs
    exact (incrementEquiv s c incs).1
  · intro s c incs
    exact (incrementEquiv s c incs).2

/-- Witness for C9 (amended): equal concrete results of the two increment
operations, and a concrete all-positive bonus set accepted identically. -/
theorem C9_witness :
    (v1Increment exampleScores (some .feat_bonus) [(.dexterity, .int 2)]).2.toV2
      = (v2AddBonus exampleScores.toV2 (some .feat) [(.dexterity, .int 2)]).2 ∧
    AbilityBonus.init .racial (PyFields.ofInts 1 1 1 1 1 1)
      = .ok ⟨⟨1, 1, 1, 1, 1, 1⟩, .racial⟩ := by
  constructor
  · exact C9_amended_equivalence.2.2.2.2.2.2 exampleScores .feat_bonus
      [(.dexterity, .int 2)]
  · exact (C9_amended_equivalence.2.2.2.2.1 .racial (PyFields.ofInts 1 1 1 1 1 1)
      (by decide) (by decide)).1

/-- C10: the 20-point cap is not a construction-time invariant: a base set
with strength 25 is accepted by both versions, aggregate construction
succeeds, and the strength total is 25 > 20; the cap is enforced only inside
add_bonus, so such states persist — any add_bonus (increment_attribute) batch
that targets an ability whose total already exceeds the cap fails and leaves
the state unchanged, never reducing the total. -/
theorem C10_cap_only_checked_in_add_bonus :
    BaseAbilities.init (PyFields.ofInts 25 10 10 10 10 10) = .ok base25 ∧
    ScoreBase.init (PyFields.ofInts 25 10 10 10 10 10) = .ok base25 ∧
    CharacterStats.init base25 none none none = .ok stats25 ∧
    stats25.total_score .strength = 25 ∧
    MAX_SCORE < stats25.total_score .strength ∧
    (∀ (s : CharacterStats) (bt : BonusType) (incs : List (Ability × PyVal))
      (a : Ability) (v : PyVal), (a, v) ∈ incs → MAX_SCORE < s.total_score a →
      ∃ e, v2AddBonus s (some bt) incs = (some e, s)) ∧
    (∀ (s : AbilityScores) (c : ComponentScore) (incs : List (Ability × PyVal))
      (a : Ability) (v : PyVal), (a, v) ∈ incs → MAX_TOTAL < s.sum_scores a →
      ∃ e, v1Increment s (some c) incs = (some e, s)) := by
  refine ⟨rfl, rfl, rfl, by decide, by decide, ?_, ?_⟩
  · intro s bt incs a v hmem hgt
    have hv : v2Validate s incs ≠ none := by
      intro hnone
      rw [v2Validate_eq_none_iff] at hnone
      obtain ⟨n, hn, hpos, hcap⟩ := hnone (a, v) hmem
      dsimp only at hcap
      omega
    obtain ⟨e, he⟩ := Option.ne_none_iff_exists'.mp hv
    have h1 : (v2AddBonus s (some bt) incs).1 = some e := by
      simp [v2AddBonus, he]
    have h2 := v2AddBonus_error_state s (some bt) incs e h1
    refine ⟨e, ?_⟩
    rw [show v2AddBonus s (some bt) incs
        = ((v2AddBonus s (some bt) incs).1, (v2AddBonus s (some bt) incs).2) from rfl,
      h1, h2]
  · intro s c incs a v hmem hgt
    by_cases hp : v1ValidatePos incs = none
    · have hc : v1ValidateCap s incs ≠ none := by
        intro hnone
        rw [v1ValidateCap_eq_none_iff] at hnone
        have hcap := hnone (a, v) hmem
        dsimp only at hcap
        rw [v1ValidatePos_eq_none_iff] at hp
        obtain ⟨n, hn, hpos⟩ := hp (a, v) hmem
        dsimp only at hn
        rw [hn] at hcap
        simp [PyVal.toIntD] at hcap
        omega
      obtain ⟨e, he⟩ := Option.ne_none_iff_exists'.mp hc
      have h1 : (v1Increment s (some c) incs).1 = some e := by
        simp [v1Increment, hp, he]
      have h2 := v1Increment_error_state s (some c) incs e h1
      refine ⟨e, ?_⟩
      rw [show v1Increment s (some c) incs
          = ((v1Increment s (some c) incs).1, (v1Increment s (some c) incs).2) from rfl,
        h1, h2]
    · obtain ⟨e, he⟩ := Option.ne_none_iff_exists'.mp hp
      have h1 : (v1Increment s (some c) incs).1 = some e := by
        simp [v1Increment, he]
      have h2 := v1Increment_error_state s (some c) incs e h1
      refine ⟨e, ?_⟩
      rw [show v1Increment s (some c) incs
          = ((v1Increment s (some c) incs).1, (v1Increment s (some c) incs).2) from rfl,
        h1, h2]

/-- Witness for C10: any positive increment on the over-cap strength of the
concrete state fails in both versions, leaving the states unchanged. -/
theorem C10_witness :
    (∃ e, v2AddBonus stats25 (some .feat) [(.strength, .int 1)] = (some e, stats25)) ∧
    (∃ e, v1Increment ⟨base25, .zero, .zero, .zero⟩ (some .feat_bonus)
      [(.strength, .int 1)] = (some e, ⟨base25, .zero, .zero, .zero⟩)) := by
  constructor
  · exact C10_cap_only_checked_in_add_bonus.2.2.2.2.2.1 stats25 .feat
      [(.strength, .int 1)] .strength (.int 1) (by decide) (by decide)
  · exact C10_cap_only_checked_in_add_bonus.2.2.2.2.2.2 ⟨base25, .zero, .zero, .zero⟩
      .feat_bonus [(.strength, .int 1)] .strength (.int 1) (by decide) (by decide)

end DnD
